import Mathlib

/-!
Shallow embedding of the offf-go function framework (context package,
async runtime adapter, and runtime manager) together with proofs about
the claims of its specification.

Modelling conventions:
* Go `map[string]T` is modelled as `Option (List (String × T))`:
  `none` is a nil map, `some l` a non-nil map with association list `l`.
  This keeps the distinction that `reflect.DeepEqual` draws between a
  nil map and an empty non-nil map.
* Go `[]byte` payloads are `List Nat` (byte values; their numeric range
  is irrelevant to every claim).
* Fallible Go functions return `Except`/`Option`; a Go runtime panic is
  modelled by a dedicated `GoResult.panics` constructor (or `none`).
* Calls into the dapr client are recorded as an explicit trace of
  `DaprCall` values, and the broker's answers are supplied by a
  `DaprClient` record of response functions.
-/

namespace OFFF

/-- Byte-slice payloads (`[]byte`). -/
abbrev Bytes := List Nat

/-- Go `map[string]α`: `none` models a nil map, `some l` a non-nil map. -/
abbrev GoMap (α : Type) := Option (List (String × α))

/-- Association-list lookup (first binding wins), the read `m[k]` on the
underlying entry list of a Go map. -/
def lookupStr {α : Type} : List (String × α) → String → Option α
  | [], _ => none
  | (k, v) :: rest, key => if k = key then some v else lookupStr rest key

/-- Read `m[k]` on a Go map; indexing a nil map yields no value. -/
def mapLookup {α : Type} (m : GoMap α) (k : String) : Option α :=
  match m with
  | none => none
  | some l => lookupStr l k

/-- Go map assignment `m[k] = v` on the entry list: overwrite the first
binding of `k`, or append a new binding. -/
def mapSet : List (String × String) → String → String → List (String × String)
  | [], k, v => [(k, v)]
  | (k0, v0) :: rest, k, v =>
      if k0 = k then (k, v) :: rest else (k0, v0) :: mapSet rest k v

/-- Constant `OpenFuncBinding ResourceType = "bindings"` (part_001:32). -/
def OpenFuncBinding : String := "bindings"

/-- Constant `OpenFuncTopic ResourceType = "pubsub"` (part_001:33). -/
def OpenFuncTopic : String := "pubsub"

/-- Constant `Async Runtime = "Async"` (part_001:30). -/
def Async : String := "Async"

/-- Constant `Knative Runtime = "Knative"` (part_001:31). -/
def Knative : String := "Knative"

/-- Constant `Success = 200` (part_001:34). -/
def Success : Int := 200

/-- Constant `InternalError = 500` (part_001:35). -/
def InternalError : Int := 500

/-- Constant `defaultPort = "8080"` (part_001:36). -/
def defaultPort : String := "8080"

/-- Constant `TracingProviderSkywalking = "skywalking"` (part_001:38). -/
def TracingProviderSkywalking : String := "skywalking"

/-- Constant `TracingProviderOpentelemetry = "opentelemetry"` (part_001:39). -/
def TracingProviderOpentelemetry : String := "opentelemetry"

/-- Constant `KubernetesMode = "kubernetes"` (part_001:40). -/
def KubernetesMode : String := "kubernetes"

/-- Constant `SelfHostMode = "self-host"` (part_001:41). -/
def SelfHostMode : String := "self-host"

/-- Struct `Input` (part_001:218-223). `ResourceType` is a string type. -/
structure Input where
  uri : String
  component : String
  type : String
  metadata : GoMap String
deriving DecidableEq

/-- Struct `Output` (part_001:225-231). -/
structure Output where
  uri : String
  component : String
  type : String
  metadata : GoMap String
  operation : String
deriving DecidableEq

/-- Struct `TracingProvider` (part_001:247-250). -/
structure TracingProvider where
  name : String
  oapServer : String
deriving DecidableEq

/-- Struct `PluginsTracing` (part_001:240-245). -/
structure PluginsTracing where
  enable : Bool
  provider : Option TracingProvider
  tags : GoMap String
  baggage : GoMap String
deriving DecidableEq

/-- The dapr `common.BindingEvent` (data plus metadata), as used by the
context package. -/
structure BindingEvent where
  data : Bytes
  metadata : GoMap String
deriving DecidableEq

/-- The dapr `common.TopicEvent` fields relevant to this embedding. -/
structure TopicEvent where
  id : String
  pubsubName : String
  topic : String
  data : Bytes
deriving DecidableEq

/-- A CloudEvents `v2.Event` reduced to the fields the framework reads. -/
structure CloudEvent where
  id : String
  source : String
  eventType : String
  data : Bytes
deriving DecidableEq

/-- Struct `EventMetadata` (part_001:206-211). -/
structure EventMetadata where
  inputName : String
  bindingEvent : Option BindingEvent
  topicEvent : Option TopicEvent
  cloudEvent : Option CloudEvent
deriving DecidableEq

/-- Struct `Context` (part_001:181-204), restricted to the fields the
claims exercise; `mode`, `podName` and `podNamespace` are the lowercase
private fields set by `parseContext`. -/
structure Context where
  name : String
  version : String
  requestID : String
  inputs : GoMap Input
  outputs : GoMap Output
  runtime : String
  port : String
  eventMeta : EventMetadata
  prePlugins : List String
  postPlugins : List String
  pluginsTracing : Option PluginsTracing
  httpPattern : String
  podName : String
  podNamespace : String
  mode : String
deriving DecidableEq

/-- Test for `reflect.DeepEqual(m, map[string]α{})`: true exactly for a
non-nil empty map (`DeepEqual` distinguishes nil from empty maps). -/
def deepEqualEmptyMap {α : Type} (m : GoMap α) : Bool :=
  match m with
  | some [] => true
  | _ => false

/-- Embeds `(*Context).HasInputs` (part_001:290-296): false exactly when
`ctx.Inputs` deep-equals a freshly made empty non-nil map. -/
def Context.HasInputs (ctx : Context) : Bool :=
  if deepEqualEmptyMap ctx.inputs then false else true

/-- Embeds `(*Context).HasOutputs` (part_001:298-304). -/
def Context.HasOutputs (ctx : Context) : Bool :=
  if deepEqualEmptyMap ctx.outputs then false else true

/-- One call made against the dapr client by `Send`. -/
inductive DaprCall where
  | publishEvent (pubsubName topicName : String) (data : Bytes)
  | invokeBinding (name operation : String) (data : Bytes) (metadata : GoMap String)
deriving DecidableEq

/-- The dapr `*dapr.BindingEvent` response of `InvokeBinding`. -/
structure BindingResponse where
  data : Bytes
  metadata : GoMap String
deriving DecidableEq

/-- Broker oracle: the answers the dapr client gives to each call.
`publishEvent` yields an optional error; `invokeBinding` yields either
an error or an optional response (Go returns a possibly nil pointer). -/
structure DaprClient where
  publishEvent : String → String → Bytes → Option String
  invokeBinding : String → String → Bytes → GoMap String → Except String (Option BindingResponse)

/-- Embeds `(*Context).Send` (part_001:252-288), returning the result
together with the trace of dapr client calls it performed.
The source guard is `if ctx.HasOutputs() { return nil, errors.New("no output") }`:
it returns the "no output" error precisely when `HasOutputs()` is true.
When the output's `Type` matches neither switch case, no dapr call is
made and the function returns `nil, nil`. -/
def Context.Send (client : DaprClient) (ctx : Context) (outputName : String) (data : Bytes) :
    Except String (Option Bytes) × List DaprCall :=
  if ctx.HasOutputs then (.error "no output", [])
  else
    match mapLookup ctx.outputs outputName with
    | none => (.error ("output " ++ outputName ++ " not found"), [])
    | some output =>
        if output.type = OpenFuncTopic then
          let call := DaprCall.publishEvent output.component output.uri data
          match client.publishEvent output.component output.uri data with
          | some e => (.error e, [call])
          | none => (.ok none, [call])
        else if output.type = OpenFuncBinding then
          let call := DaprCall.invokeBinding output.component output.operation data output.metadata
          match client.invokeBinding output.component output.operation data output.metadata with
          | .error e => (.error e, [call])
          | .ok (some resp) => (.ok (some resp.data), [call])
          | .ok none => (.ok none, [call])
        else (.ok none, [])

/-- Dynamic classification of the `event interface{}` argument of
`SetEventMeta`: the three pointer types its switch recognizes, and
`unrecognized` for a value of any other dynamic type. -/
inductive GoEvent where
  | bindingEvent (e : BindingEvent)
  | topicEvent (e : TopicEvent)
  | cloudEvent (e : CloudEvent)
  | unrecognized
deriving DecidableEq

/-- Embeds `(*Context).SetEventMeta` (part_001:386-400). The returned
Bool records whether the default branch logged the resolution error.
After the switch the assignment `ctx.EventMeta.InputName = inputName`
runs unconditionally; the function returns normally in every case. -/
def Context.SetEventMeta (ctx : Context) (inputName : String) (event : GoEvent) :
    Context × Bool :=
  let m := ctx.eventMeta
  let step : EventMetadata × Bool :=
    match event with
    | .bindingEvent e => ({ m with bindingEvent := some e }, false)
    | .topicEvent e => ({ m with topicEvent := some e }, false)
    | .cloudEvent e => ({ m with cloudEvent := some e }, false)
    | .unrecognized => (m, true)
  ({ ctx with eventMeta := { step.1 with inputName := inputName } }, step.2)

/-- Embeds `hasPlugin` (part_001:536-543). -/
def hasPlugin : List String → String → Bool
  | [], _ => false
  | plg :: rest, target => if plg = target then true else hasPlugin rest target

/-- Embeds `registerTracingPluginIntoPrePlugins` (part_001:518-526).
The source's nil-slice guard (`if plugins == nil`) replaces a nil slice
by an empty one, which is the identity under the list model; when the
target is absent it is appended with `append(plugins, target)`. -/
def registerTracingPluginIntoPrePlugins (plugins : List String) (target : String) :
    List String :=
  if hasPlugin plugins target then plugins else plugins ++ [target]

/-- Embeds `registerTracingPluginIntoPostPlugins` (part_001:528-534).
When the target is absent the source runs
`plugins = append(plugins[:1], plugins[:]...)` followed by
`plugins[0] = target`. On an empty slice `plugins[:1]` is out of range
and the program panics, modelled by `none`. On `a :: rest` the append
yields `a :: a :: rest` (the variadic copy is memmove-like) and the
index-0 store turns it into `target :: a :: rest`. -/
def registerTracingPluginIntoPostPlugins (plugins : List String) (target : String) :
    Option (List String) :=
  if hasPlugin plugins target then some plugins
  else
    match plugins with
    | [] => none
    | a :: rest => some (target :: a :: rest)

/-- Decimal digit test on a character. -/
def isDigitChar (c : Char) : Bool := decide ('0' ≤ c) && decide (c ≤ '9')

/-- All characters are decimal digits (and the list is non-empty when
checked by `atoiOk`). -/
def allDigits : List Char → Bool
  | [] => true
  | c :: rest => isDigitChar c && allDigits rest

/-- Success test of Go `strconv.Atoi`: an optional sign followed by at
least one decimal digit (overflow of the machine int range is not
modelled; no claim exercises it). -/
def atoiOk (s : String) : Bool :=
  match s.data with
  | [] => false
  | '+' :: rest => (decide (rest ≠ [])) && allDigits rest
  | '-' :: rest => (decide (rest ≠ [])) && allDigits rest
  | l => allDigits l

/-- Outcome of a Go computation that may return an error or panic. -/
inductive GoResult (α : Type) where
  | panics
  | fails (msg : String)
  | ok (val : α)
deriving DecidableEq

/-- Projection used in theorems: true exactly on a successful result. -/
def GoResult.isOk {α : Type} : GoResult α → Bool
  | .ok _ => true
  | _ => false

/-- Projection used in theorems: the pre-plugin list of a successfully
parsed context. -/
def resultPrePlugins : GoResult Context → Option (List String)
  | .ok c => some c.prePlugins
  | _ => none

/-- Environment variables read by `parseContext` (`CONTEXT_MODE`,
`POD_NAME`, `POD_NAMESPACE`); an unset variable is the empty string. -/
structure Env where
  contextMode : String
  podName : String
  podNamespace : String
deriving DecidableEq

/-- The fresh `EventMetadata` value `parseContext` installs. -/
def emptyEventMeta : EventMetadata :=
  { inputName := "", bindingEvent := none, topicEvent := none, cloudEvent := none }

/-- The input-validation loop body of `parseContext` (part_001:580-587):
the first input whose `Type` is neither `OpenFuncBinding` nor
`OpenFuncTopic` yields the invalid-input-type error. -/
def validateInputTypes : List (String × Input) → Option String
  | [] => none
  | (name, i) :: rest =>
      if i.type = OpenFuncBinding ∨ i.type = OpenFuncTopic then validateInputTypes rest
      else some ("invalid input type " ++ name ++ ": " ++ i.type)

/-- The output-validation loop body of `parseContext` (part_001:591-598). -/
def validateOutputTypes : List (String × Output) → Option String
  | [] => none
  | (name, o) :: rest =>
      if o.type = OpenFuncBinding ∨ o.type = OpenFuncTopic then validateOutputTypes rest
      else some ("invalid output type " ++ name ++ ": " ++ o.type)

/-- The tags update of the tracing block (part_001:633-639): run only on
a non-nil tags map; sets `func` when absent or different, then always
sets `instance` and `namespace`. -/
def updateTracingTags (ctx : Context) (tr : PluginsTracing) : PluginsTracing :=
  match tr.tags with
  | none => tr
  | some tagsList =>
      let tags1 :=
        match lookupStr tagsList "func" with
        | some fn => if fn = ctx.name then tagsList else mapSet tagsList "func" ctx.name
        | none => mapSet tagsList "func" ctx.name
      let tags2 := mapSet tags1 "instance" ctx.podName
      let tags3 := mapSet tags2 "namespace" ctx.podNamespace
      { tr with tags := some tags3 }

/-- The tracing block of `parseContext` (part_001:624-643): on an
enabled tracing config with a known provider name, inject the provider
name into the pre- and post-plugin lists (the latter can panic on an
empty list) and refresh the tags; an enabled config without a provider
name is a configuration error. -/
def applyTracing (ctx : Context) : GoResult Context :=
  match ctx.pluginsTracing with
  | none => .ok ctx
  | some tr =>
      if tr.enable then
        match tr.provider with
        | some p =>
            if p.name = "" then
              .fails "the tracing plugin is enabled, but its configuration is incorrect"
            else if p.name = TracingProviderSkywalking ∨ p.name = TracingProviderOpentelemetry then
              let pre := registerTracingPluginIntoPrePlugins ctx.prePlugins p.name
              match registerTracingPluginIntoPostPlugins ctx.postPlugins p.name with
              | none => .panics
              | some post =>
                  let ctx2 := { ctx with prePlugins := pre, postPlugins := post }
                  .ok { ctx2 with pluginsTracing := some (updateTracingTags ctx2 tr) }
            else .fails ("invalid tracing provider name: " ++ p.name)
        | none => .fails "the tracing plugin is enabled, but its configuration is incorrect"
      else .ok ctx

/-- Embeds `parseContext` (part_001:553-663) from the point after
`json.Unmarshal` succeeded: `cfg` is the decoded context (whose `Inputs`
and `Outputs` start from non-nil maps made by the constructor and are
only replaced when the document carries the field) and `env` holds the
environment variables. The final `DAPR_GRPC_PORT` block only assigns the
package-global client port and does not affect the returned context, so
it is not part of the model; the port parse error message carries the
offending port instead of Go's strconv error text. -/
def parseContext (cfg : Context) (env : Env) : GoResult Context :=
  if cfg.runtime = Async ∨ cfg.runtime = Knative then
    let ctx := { cfg with eventMeta := emptyEventMeta }
    let inputErr : Option String :=
      if ctx.HasInputs then none
      else match ctx.inputs with
           | none => none
           | some l => validateInputTypes l
    match inputErr with
    | some e => .fails e
    | none =>
      let outputErr : Option String :=
        if ctx.HasOutputs then none
        else match ctx.outputs with
             | none => none
             | some l => validateOutputTypes l
      match outputErr with
      | some e => .fails e
      | none =>
        let mode := if env.contextMode = SelfHostMode then SelfHostMode else KubernetesMode
        let ctx2 := { ctx with mode := mode }
        let podStep : GoResult Context :=
          if mode = KubernetesMode then
            if env.podName = "" then
              .fails ("the name of the pod cannot be retrieved from the environment, " ++
                "you need to set the POD_NAME environment variable")
            else if env.podNamespace = "" then
              .fails ("the namespace of the pod cannot be retrieved from the environment, " ++
                "you need to set the POD_NAMESPACE environment variable")
            else .ok { ctx2 with podName := env.podName, podNamespace := env.podNamespace }
          else .ok ctx2
        match podStep with
        | .panics => .panics
        | .fails e => .fails e
        | .ok ctx3 =>
          match applyTracing ctx3 with
          | .panics => .panics
          | .fails e => .fails e
          | .ok ctx4 =>
            if ctx4.port = "" then .ok { ctx4 with port := defaultPort }
            else if atoiOk ctx4.port then .ok ctx4
            else .fails ("error parsing port: " ++ ctx4.port)
  else .fails ("invalid runtime: " ++ cfg.runtime)

/-- One handler attached to the dapr service by the async runtime:
`AddBindingInvocationHandler(input.Uri, ...)` after `input.Uri` was
overwritten with `input.Component`, or `AddTopicEventHandler` with the
subscription `{PubsubName: input.Component, Topic: input.Uri}`. -/
inductive DaprHandler where
  | binding (name : String)
  | topic (pubsubName topicName : String)
deriving DecidableEq

/-- The registration loop of the async `(*Runtime).RegisterOpenFunction`
(framework file, async doc, lines 413-471): walk the declared inputs,
attach a binding or topic handler per input, and abort on the first
input whose type matches neither case. `AddBindingInvocationHandler` and
`AddTopicEventHandler` are modelled as succeeding (`funcErr = nil`). -/
def registerInputs : List (String × Input) → List DaprHandler × Option String
  | [] => ([], none)
  | (_, input) :: rest =>
      if input.type = OpenFuncBinding then
        let r := registerInputs rest
        (DaprHandler.binding input.component :: r.1, r.2)
      else if input.type = OpenFuncTopic then
        let r := registerInputs rest
        (DaprHandler.topic input.component input.uri :: r.1, r.2)
      else ([], some ("invalid input type: " ++ input.type))

/-- Embeds the async `(*Runtime).RegisterOpenFunction` (async doc,
lines 398-479): when `ctx.HasInputs()` holds, range over the input map
and attach handlers (ranging over a nil map does nothing and returns
nil); otherwise fail with the no-inputs error. The result pairs the
handlers attached to the dapr service with the returned error. -/
def RegisterOpenFunction (ctx : Context) : List DaprHandler × Option String :=
  if ctx.HasInputs then
    match ctx.inputs with
    | none => ([], none)
    | some l => registerInputs l
  else ([], some "no inputs defined for the function")

/-- ASCII lower-casing of one character. -/
def toLowerChar (c : Char) : Char :=
  if decide ('A' ≤ c) && decide (c ≤ 'Z') then Char.ofNat (c.toNat + 32) else c

/-- Go `strings.EqualFold` restricted to ASCII simple case folding:
equality of the two character sequences after lower-casing. -/
def equalFold (a b : String) : Bool :=
  a.data.map toLowerChar == b.data.map toLowerChar

/-- Embeds the outcome mapping of the topic-event handler closure of the
async `RegisterOpenFunction` (async doc, lines 441-458): from the
function's `Out` code, the `Out` metadata and the stored context error
to the `(retry, err)` pair handed back to dapr. -/
def topicHandlerResult (code : Int) (outMetadata : GoMap String) (storedErr : Option String) :
    Bool × Option String :=
  if code = Success then (false, none)
  else if code = InternalError then
    match mapLookup outMetadata "retry" with
    | some v =>
        if equalFold v "true" then (true, storedErr)
        else if equalFold v "false" then (false, storedErr)
        else (false, storedErr)
    | none => (false, storedErr)
  else (false, none)

/-- A framework plugin in the runtime manager: its `Name()` and an
instance tag. `Init()` returns a plugin instance; instance identity is
modelled by tagging each `Init()` result with a fresh numeric id drawn
from a counter, so that reuse of a memoized instance is visible as
equality of tags. -/
structure Plugin where
  name : String
  instId : Nat
deriving DecidableEq

/-- State threaded through `(*RuntimeManager).init` (runtime doc,
lines 551-577): the `pluginState` name-to-instance map, the fresh-id
counter, and the trace of names `Init()` was called on. -/
structure InitState where
  pluginState : List (String × Plugin)
  nextId : Nat
  initCalls : List String
deriving DecidableEq

/-- One iteration of the loops in `(*RuntimeManager).init`: if the name
is already in `pluginState` reuse the stored instance, else call
`Init()` (producing a fresh instance) and record it. -/
def initOne (s : InitState) (plg : Plugin) : InitState × Plugin :=
  match lookupStr s.pluginState plg.name with
  | some existPlg => (s, existPlg)
  | none =>
      let p : Plugin := { name := plg.name, instId := s.nextId }
      ({ pluginState := (plg.name, p) :: s.pluginState,
         nextId := s.nextId + 1,
         initCalls := s.initCalls ++ [plg.name] }, p)

/-- Folds `initOne` over a plugin list, returning the rebuilt list
(`newPrePlugins` / `newPostPlugins` in the source). -/
def initList (s : InitState) : List Plugin → InitState × List Plugin
  | [] => (s, [])
  | p :: ps =>
      let r1 := initOne s p
      let r2 := initList r1.1 ps
      (r2.1, r1.2 :: r2.2)

/-- Embeds `(*RuntimeManager).init` (runtime doc, lines 551-577): start
from an empty `pluginState`, rebuild the pre list, then the post list
against the same map. Returns the final state and both rebuilt lists. -/
def rmInit (pre post : List Plugin) : InitState × List Plugin × List Plugin :=
  let s0 : InitState := { pluginState := [], nextId := 1, initCalls := [] }
  let r1 := initList s0 pre
  let r2 := initList r1.1 post
  (r2.1, r1.2, r2.2)

/-- The function's result object: code, payload and metadata (`Out`,
part_001:233-238). -/
structure FuncOut where
  code : Int
  data : Bytes
  metadata : GoMap String
deriving DecidableEq

/-- The per-invocation context as the hook pipeline sees it: the current
`Out`, the recorded function error, and the rest of the mutable state a
hook may touch (abstracted by `σ`). -/
structure InvCtx (σ : Type) where
  out : FuncOut
  funcError : Option String
  user : σ

/-- A hook in the runtime manager pipeline: `ExecPreHook`/`ExecPostHook`
receive the context, possibly mutate it, and return an error. -/
structure Hook (σ : Type) where
  name : String
  run : σ → σ × Option String

/-- Replaces a hook's returned error by nil, leaving its state effect
untouched; used to state that hook errors are only logged. -/
def Hook.eraseError {σ : Type} (h : Hook σ) : Hook σ :=
  { h with run := fun s => ((h.run s).1, none) }

/-- Embeds `(*RuntimeManager).ProcessPreHooks` / `ProcessPostHooks`
(runtime doc, lines 579-593): run every hook in order; a returned error
only produces a warning entry and the loop continues. Returns the final
context, the names executed in order, and the warnings logged. -/
def ProcessHooks {σ : Type} : List (Hook σ) → σ → σ × List String × List String
  | [], s => (s, [], [])
  | h :: rest, s =>
      let step := h.run s
      let warns : List String :=
        match step.2 with
        | some msg => ["plugin " ++ h.name ++ " failed: " ++ msg]
        | none => []
      let r := ProcessHooks rest step.1
      (r.1, h.name :: r.2.1, warns ++ r.2.2)

/-- Embeds `(*RuntimeManager).FunctionRunWrapperWithHooks` (runtime doc,
lines 595-626) for the OpenFunction shape: run all pre-hooks, invoke the
function body on the event payload and store its `Out` and error into
the context (`WithOut`/`WithError`), then run all post-hooks. The Bool
records that the function body ran. -/
def FunctionRunWrapperWithHooks {σ : Type} (pre post : List (Hook (InvCtx σ)))
    (fn : InvCtx σ → Bytes → FuncOut × Option String) (data : Bytes) (c0 : InvCtx σ) :
    InvCtx σ × Bool × List String × List String :=
  let r1 := ProcessHooks pre c0
  let body := fn r1.1 data
  let c2 : InvCtx σ := { r1.1 with out := body.1, funcError := body.2 }
  let r2 := ProcessHooks post c2
  (r2.1, true, r1.2.1 ++ r2.2.1, r1.2.2 ++ r2.2.2)

/-- Base context fixture for concrete evaluations: nil maps, Async
runtime, default port, no plugins, no tracing. -/
def demoCtx : Context :=
  { name := "function-demo", version := "v1.0.0", requestID := "",
    inputs := none, outputs := none, runtime := Async, port := "8080",
    eventMeta := emptyEventMeta,
    prePlugins := [], postPlugins := [], pluginsTracing := none,
    httpPattern := "", podName := "", podNamespace := "", mode := "" }

/-- Environment fixture: self-host mode (no pod identity needed). -/
def selfHostEnv : Env :=
  { contextMode := SelfHostMode, podName := "", podNamespace := "" }

/-- A declared binding output named `out1`. -/
def demoOutput : Output :=
  { uri := "u1", component := "c1", type := OpenFuncBinding,
    metadata := none, operation := "create" }

/-- Context fixture declaring exactly one named output, `out1`. -/
def sendDemoCtx : Context :=
  { demoCtx with outputs := some [("out1", demoOutput)] }

/-- Configuration fixture declaring one input whose type is neither
`bindings` nor `pubsub`. -/
def invalidInputCfg : Context :=
  { demoCtx with
    runtime := Knative,
    inputs := some [("in1", { uri := "u", component := "c", type := "invalid", metadata := none })],
    outputs := some [] }

/-- Configuration fixture with tracing enabled (skywalking provider),
a pre-plugin list `["a"]` that does not contain the provider name, and a
non-empty post-plugin list (so that the post injection does not panic). -/
def tracingCfg : Context :=
  { demoCtx with
    runtime := Knative,
    inputs := some [], outputs := some [],
    prePlugins := ["a"], postPlugins := ["b"],
    pluginsTracing := some
      { enable := true,
        provider := some { name := TracingProviderSkywalking, oapServer := "oap" },
        tags := none, baggage := none } }

/-- Configuration fixture with tracing enabled and an empty post-plugin
list: the post-hook injection slices an empty list. -/
def tracingEmptyPostCfg : Context :=
  { tracingCfg with prePlugins := [], postPlugins := [] }

/-- Context fixture whose input map is non-nil and empty: the shape
`parseContext` produces when the configuration declares no inputs. -/
def noInputsCtx : Context :=
  { demoCtx with inputs := some [], outputs := some [] }

/-- Pre-hook plugin list `[A, B]` for the memoization fixture. -/
def demoPre : List Plugin := [{ name := "A", instId := 0 }, { name := "B", instId := 0 }]

/-- Post-hook plugin list `[B, A]` sharing both names with `demoPre`. -/
def demoPost : List Plugin := [{ name := "B", instId := 0 }, { name := "A", instId := 0 }]

/-! Helper lemmas shared by the claim theorems. -/

/-- Characterizes `hasPlugin` as list membership. -/
theorem hasPlugin_eq_true_iff_mem (plugins : List String) (target : String) :
    hasPlugin plugins target = true ↔ target ∈ plugins := by
  induction plugins with
  | nil => simp [hasPlugin]
  | cons a rest ih =>
      by_cases h : a = target
      · simp [hasPlugin, h]
      · simp [hasPlugin, h, ih]
        intro hc
        exact absurd hc.symm h

/-- Characterizes the deep-equality test against the empty non-nil map. -/
theorem deepEqualEmptyMap_eq_true_iff {α : Type} (m : GoMap α) :
    deepEqualEmptyMap m = true ↔ m = some [] := by
  match m with
  | none => simp [deepEqualEmptyMap]
  | some [] => simp [deepEqualEmptyMap]
  | some (x :: xs) => simp [deepEqualEmptyMap]

/-! Claim theorems. -/

/-- C1 (code evaluated at the failing input): `out1` is a declared
output of `sendDemoCtx`, yet `Send` on it returns the "no output" error
and performs no dapr call, for every broker behavior and payload — the
inverted `HasOutputs` guard fires exactly when outputs are declared, so
the dispatch switch is unreachable. -/
theorem send_declared_output_rejected (client : DaprClient) (data : Bytes) :
    mapLookup sendDemoCtx.outputs "out1" = some demoOutput ∧
    Context.Send client sendDemoCtx "out1" data = (Except.error "no output", []) :=
  ⟨rfl, rfl⟩

/-- C2: the topic-event handler of the Eventing adapter maps the
function's `Out` code to the broker's `(retry, err)` pair: `Success`
gives `(false, nil)`; `InternalError` returns the stored function error,
with retry true exactly when the `Out` metadata key `retry` is present
and case-insensitively equals "true" (absent, "false", or unparseable
values give retry false); any other code gives `(false, nil)`. -/
theorem topic_handler_code_mapping (code : Int) (md : GoMap String) (e : Option String) :
    topicHandlerResult Success md e = (false, none) ∧
    ((topicHandlerResult InternalError md e).2 = e ∧
      ((topicHandlerResult InternalError md e).1 = true ↔
        ∃ v, mapLookup md "retry" = some v ∧ equalFold v "true" = true)) ∧
    (code ≠ Success → code ≠ InternalError → topicHandlerResult code md e = (false, none)) := by
  refine ⟨?_, ⟨?_, ?_⟩, ?_⟩
  · simp [topicHandlerResult]
  · unfold topicHandlerResult
    rw [if_neg (by decide : ¬ (InternalError = Success)), if_pos rfl]
    cases h : mapLookup md "retry" with
    | none => rfl
    | some v =>
        by_cases h1 : equalFold v "true" = true
        · simp [h1]
        · by_cases h2 : equalFold v "false" = true <;> simp [h1, h2]
  · unfold topicHandlerResult
    rw [if_neg (by decide : ¬ (InternalError = Success)), if_pos rfl]
    cases h : mapLookup md "retry" with
    | none => simp
    | some v =>
        by_cases h1 : equalFold v "true" = true
        · simp [h, h1]
        · by_cases h2 : equalFold v "false" = true <;> simp [h, h1, h2]
  · intro h1 h2
    unfold topicHandlerResult
    rw [if_neg h1, if_neg h2]

/-- Witness for C2 at a non-success, non-internal-error code. -/
theorem topic_handler_code_mapping_witness :
    topicHandlerResult 404 none none = (false, none) :=
  (topic_handler_code_mapping 404 none none).2.2 (by decide) (by decide)

/-- C3 (code evaluated at the failing input): injecting the tracing
hook name into an empty post-hook list panics (index out of range on
`plugins[:1]`), both in isolation and end-to-end through `parseContext`
on a configuration with tracing enabled and no configured post-hooks. -/
theorem post_plugin_injection_panics_on_empty :
    registerTracingPluginIntoPostPlugins [] TracingProviderSkywalking = none ∧
    parseContext tracingEmptyPostCfg selfHostEnv = GoResult.panics :=
  ⟨rfl, rfl⟩

/-- C4 (code evaluated at the failing input): the declared input of
`invalidInputCfg` has a type the validation loop body would reject, yet
`parseContext` succeeds — the loop is guarded by `!ctx.HasInputs()`, so
it never runs when any input is declared. -/
theorem parse_accepts_invalid_input_type :
    validateInputTypes
        [("in1", { uri := "u", component := "c", type := "invalid", metadata := none })] =
      some "invalid input type in1: invalid" ∧
    (parseContext invalidInputCfg selfHostEnv).isOk = true :=
  ⟨rfl, rfl⟩

/-- C5 counterexample: with configured pre-hooks `["a"]` (not containing
the provider name) and tracing enabled for skywalking, `parseContext`
produces the pre-hook list `["a", "skywalking"]`, whose head is not the
provider's hook name. -/
theorem tracing_pre_head_counterexample :
    hasPlugin tracingCfg.prePlugins TracingProviderSkywalking = false ∧
    resultPrePlugins (parseContext tracingCfg selfHostEnv) = some ["a", "skywalking"] ∧
    ¬ (["a", "skywalking"].head? = some TracingProviderSkywalking) :=
  ⟨rfl, rfl, by decide⟩

/-- C5 amended: when tracing is enabled with a valid provider name, the
provider's hook name is appended as the LAST element of the pre-hook
list when not already present, and the list is unchanged when it is
already present. -/
theorem tracing_pre_appended_at_tail :
    (∀ plugins target, registerTracingPluginIntoPrePlugins plugins target =
        if target ∈ plugins then plugins else plugins ++ [target]) ∧
    resultPrePlugins (parseContext tracingCfg selfHostEnv) =
      some (tracingCfg.prePlugins ++ [TracingProviderSkywalking]) := by
  constructor
  · intro plugins target
    unfold registerTracingPluginIntoPrePlugins
    by_cases h : target ∈ plugins
    · rw [if_pos ((hasPlugin_eq_true_iff_mem plugins target).mpr h), if_pos h]
    · rw [if_neg (fun hc => h ((hasPlugin_eq_true_iff_mem plugins target).mp hc)), if_neg h]
  · rfl

/-- C8: registering an open function on the async runtime with a
context whose input map is empty (the shape `parseContext` produces for
a configuration declaring zero inputs) fails with the no-inputs error
and attaches no handler to the dapr service. -/
theorem register_open_function_no_inputs (ctx : Context) (h : ctx.inputs = some []) :
    RegisterOpenFunction ctx = ([], some "no inputs defined for the function") := by
  simp [RegisterOpenFunction, Context.HasInputs, deepEqualEmptyMap, h]

/-- Witness for C8 on the zero-inputs fixture. -/
theorem register_open_function_no_inputs_witness :
    noInputsCtx.inputs = some [] ∧
    RegisterOpenFunction noInputsCtx = ([], some "no inputs defined for the function") :=
  ⟨rfl, register_open_function_no_inputs noInputsCtx rfl⟩

/-- C9 counterexample: on a context with pristine event metadata,
`SetEventMeta` with an unrecognized event changes the event metadata
(its `InputName` field is assigned after the switch), so "all
event-metadata fields unchanged" fails; the error is logged. -/
theorem set_event_meta_inputname_counterexample :
    (Context.SetEventMeta demoCtx "in1" GoEvent.unrecognized).1.eventMeta ≠ demoCtx.eventMeta ∧
    (Context.SetEventMeta demoCtx "in1" GoEvent.unrecognized).2 = true := by
  constructor
  · decide
  · rfl

/-- C9 amended: for every context and unrecognized event, `SetEventMeta`
logs an error, leaves the `BindingEvent`, `TopicEvent` and `CloudEvent`
payload fields unchanged, but still sets `InputName`; it returns
normally (the invocation does not fail). -/
theorem set_event_meta_unrecognized (ctx : Context) (nm : String) :
    Context.SetEventMeta ctx nm GoEvent.unrecognized =
      ({ ctx with eventMeta := { ctx.eventMeta with inputName := nm } }, true) :=
  rfl

/-- C10: `HasInputs`/`HasOutputs` are false exactly when the respective
map is a non-nil empty map; a nil map makes them true, and a context
with a nil input map passes the adapter-registration guard (it is not
rejected with the no-inputs error). -/
theorem has_inputs_outputs_nil_vs_empty (ctx : Context) :
    (ctx.HasInputs = false ↔ ctx.inputs = some []) ∧
    (ctx.HasOutputs = false ↔ ctx.outputs = some []) ∧
    (ctx.inputs = none → ctx.HasInputs = true) ∧
    (ctx.outputs = none → ctx.HasOutputs = true) ∧
    (ctx.inputs = none → (RegisterOpenFunction ctx).2 ≠ some "no inputs defined for the function") := by
  refine ⟨?_, ?_, ?_, ?_, ?_⟩
  · unfold Context.HasInputs
    rcases hm : ctx.inputs with _ | l
    · simp [deepEqualEmptyMap]
    · cases l with
      | nil => simp [deepEqualEmptyMap]
      | cons x xs => simp [deepEqualEmptyMap]
  · unfold Context.HasOutputs
    rcases hm : ctx.outputs with _ | l
    · simp [deepEqualEmptyMap]
    · cases l with
      | nil => simp [deepEqualEmptyMap]
      | cons x xs => simp [deepEqualEmptyMap]
  · intro h
    simp [Context.HasInputs, deepEqualEmptyMap, h]
  · intro h
    simp [Context.HasOutputs, deepEqualEmptyMap, h]
  · intro h
    simp [RegisterOpenFunction, Context.HasInputs, deepEqualEmptyMap, h]

/-- Witness for C10 on the nil-maps fixture. -/
theorem has_inputs_outputs_nil_vs_empty_witness :
    demoCtx.HasInputs = true ∧
    (RegisterOpenFunction demoCtx).2 ≠ some "no inputs defined for the function" :=
  ⟨(has_inputs_outputs_nil_vs_empty demoCtx).2.2.1 rfl,
   (has_inputs_outputs_nil_vs_empty demoCtx).2.2.2.2 rfl⟩

/-! Lemmas about the runtime manager's memoizing `init`. -/

/-- A binding present in the plugin-state map survives one `initOne`
step (the map is only extended with names that are absent). -/
theorem initOne_lookup_mono (s : InitState) (plg : Plugin) (nm : String) (p : Plugin)
    (h : lookupStr s.pluginState nm = some p) :
    lookupStr ((initOne s plg).1).pluginState nm = some p := by
  unfold initOne
  cases hl : lookupStr s.pluginState plg.name with
  | some q => simpa [hl]
  | none =>
      have hne : ¬ (plg.name = nm) := by
        intro he
        rw [he, h] at hl
        cases hl
      simp [hl, lookupStr, hne, h]

/-- A binding present in the plugin-state map survives a whole
`initList` pass. -/
theorem initList_lookup_mono (ps : List Plugin) (s : InitState) (nm : String) (p : Plugin)
    (h : lookupStr s.pluginState nm = some p) :
    lookupStr ((initList s ps).1).pluginState nm = some p := by
  induction ps generalizing s with
  | nil => simpa [initList]
  | cons plg rest ih =>
      simp only [initList]
      exact ih (initOne s plg).1 (initOne_lookup_mono s plg nm p h)

/-- Well-formedness of the plugin-state map (every stored instance
carries the name it is keyed under) is preserved by `initOne`. -/
theorem initOne_wf (s : InitState) (plg : Plugin)
    (hwf : ∀ nm p, lookupStr s.pluginState nm = some p → p.name = nm) :
    ∀ nm p, lookupStr ((initOne s plg).1).pluginState nm = some p → p.name = nm := by
  intro nm p h
  unfold initOne at h
  cases hl : lookupStr s.pluginState plg.name with
  | some q =>
      rw [hl] at h
      exact hwf nm p h
  | none =>
      rw [hl] at h
      simp only [lookupStr] at h
      by_cases he : plg.name = nm
      · rw [if_pos he] at h
        cases h
        exact he
      · rw [if_neg he] at h
        exact hwf nm p h

/-- The instance `initOne` hands back is the one stored in the updated
plugin-state map under its name. -/
theorem initOne_output_lookup (s : InitState) (plg : Plugin)
    (hwf : ∀ nm p, lookupStr s.pluginState nm = some p → p.name = nm) :
    lookupStr ((initOne s plg).1).pluginState ((initOne s plg).2).name =
      some (initOne s plg).2 := by
  unfold initOne
  cases hl : lookupStr s.pluginState plg.name with
  | some q =>
      simp only [hl]
      rw [hwf plg.name q hl]
      exact hl
  | none => simp [hl, lookupStr]

/-- Every instance in the list rebuilt by `initList` is the one stored
in the final plugin-state map under its name, and well-formedness of
the map is preserved. -/
theorem initList_outputs (ps : List Plugin) (s : InitState)
    (hwf : ∀ nm p, lookupStr s.pluginState nm = some p → p.name = nm) :
    (∀ q ∈ (initList s ps).2,
        lookupStr ((initList s ps).1).pluginState q.name = some q) ∧
    (∀ nm p, lookupStr ((initList s ps).1).pluginState nm = some p → p.name = nm) := by
  induction ps generalizing s with
  | nil => exact ⟨by simp [initList], hwf⟩
  | cons plg rest ih =>
      obtain ⟨hout, hwf2⟩ := ih (initOne s plg).1 (initOne_wf s plg hwf)
      refine ⟨?_, by simpa [initList] using hwf2⟩
      intro q hq
      simp only [initList, List.mem_cons] at hq
      simp only [initList]
      rcases hq with hq | hq
      · subst hq
        exact initList_lookup_mono rest (initOne s plg).1 _ _
          (initOne_output_lookup s plg hwf)
      · exact hout q hq

/-- One `initOne` step keeps the `Init()`-call trace in sync with the
domain of the plugin-state map and free of duplicates. -/
theorem initOne_calls (s : InitState) (plg : Plugin)
    (hinv : ∀ nm, nm ∈ s.initCalls ↔ (lookupStr s.pluginState nm).isSome = true)
    (hnd : s.initCalls.Nodup) :
    (∀ nm, nm ∈ ((initOne s plg).1).initCalls ↔
        (lookupStr ((initOne s plg).1).pluginState nm).isSome = true) ∧
    ((initOne s plg).1).initCalls.Nodup := by
  cases hl : lookupStr s.pluginState plg.name with
  | some q =>
      constructor
      · intro nm
        simp only [initOne, hl]
        exact hinv nm
      · simp only [initOne, hl]
        exact hnd
  | none =>
      have hnotmem : plg.name ∉ s.initCalls := by
        intro hc
        have := (hinv plg.name).mp hc
        rw [hl] at this
        cases this
      constructor
      · intro nm
        simp only [initOne, hl, List.mem_append, List.mem_singleton, lookupStr]
        by_cases he : plg.name = nm
        · simp [he, hinv nm]
        · have hne : ¬ (nm = plg.name) := fun hc => he hc.symm
          simp [he, hne, hinv nm]
      · simp only [initOne, hl]
        rw [List.nodup_append]
        exact ⟨hnd, List.nodup_singleton _, by
          intro a ha hb
          rw [List.mem_singleton] at hb
          subst hb
          exact hnotmem ha⟩

/-- An `initList` pass keeps the `Init()`-call trace in sync with the
domain of the plugin-state map and free of duplicates. -/
theorem initList_calls (ps : List Plugin) (s : InitState)
    (hinv : ∀ nm, nm ∈ s.initCalls ↔ (lookupStr s.pluginState nm).isSome = true)
    (hnd : s.initCalls.Nodup) :
    (∀ nm, nm ∈ ((initList s ps).1).initCalls ↔
        (lookupStr ((initList s ps).1).pluginState nm).isSome = true) ∧
    ((initList s ps).1).initCalls.Nodup := by
  induction ps generalizing s with
  | nil => exact ⟨hinv, hnd⟩
  | cons plg rest ih =>
      obtain ⟨hinv1, hnd1⟩ := initOne_calls s plg hinv hnd
      simpa [initList] using ih (initOne s plg).1 hinv1 hnd1

/-- The domain of the plugin-state map after an `initList` pass is the
old domain together with the names of the processed plugins. -/
theorem initList_domain (ps : List Plugin) (s : InitState) (nm : String) :
    (lookupStr ((initList s ps).1).pluginState nm).isSome = true ↔
      (lookupStr s.pluginState nm).isSome = true ∨ nm ∈ ps.map Plugin.name := by
  induction ps generalizing s with
  | nil => simp [initList]
  | cons plg rest ih =>
      have hstep : (lookupStr ((initOne s plg).1).pluginState nm).isSome = true ↔
          (lookupStr s.pluginState nm).isSome = true ∨ nm = plg.name := by
        cases hl : lookupStr s.pluginState plg.name with
        | some q =>
            simp only [initOne, hl]
            by_cases he : nm = plg.name
            · subst he
              simp [hl]
            · simp [he]
        | none =>
            simp only [initOne, hl, lookupStr]
            by_cases he : plg.name = nm
            · subst he
              simp [hl]
            · have hne : ¬ (nm = plg.name) := fun hc => he hc.symm
              simp [he, hne]
      calc (lookupStr ((initList s (plg :: rest)).1).pluginState nm).isSome = true
          ↔ (lookupStr ((initOne s plg).1).pluginState nm).isSome = true ∨
              nm ∈ rest.map Plugin.name := by
            simpa [initList] using ih (initOne s plg).1
        _ ↔ ((lookupStr s.pluginState nm).isSome = true ∨ nm = plg.name) ∨
              nm ∈ rest.map Plugin.name := by rw [hstep]
        _ ↔ (lookupStr s.pluginState nm).isSome = true ∨ nm ∈ (plg :: rest).map Plugin.name := by
            simp [or_assoc]

/-- C6: within one runtime manager, `Init()` is called exactly once per
distinct plugin name occurring in the pre- and post-hook lists (the call
trace has no duplicate and covers exactly those names), and a name
appearing in both lists yields the same instance in the rebuilt pre and
post lists — state initialized for the pre phase is reused in the post
phase. -/
theorem plugin_init_memoized (pre post : List Plugin) :
    ((rmInit pre post).1.initCalls.Nodup ∧
      ∀ nm, nm ∈ (rmInit pre post).1.initCalls ↔ nm ∈ (pre ++ post).map Plugin.name) ∧
    (∀ p q, p ∈ (rmInit pre post).2.1 → q ∈ (rmInit pre post).2.2 →
      p.name = q.name → p = q) := by
  have hwf0 : ∀ nm p,
      lookupStr (InitState.mk [] 1 []).pluginState nm = some p → p.name = nm := by
    intro nm p h
    cases h
  have hinv0 : ∀ nm, nm ∈ (InitState.mk [] 1 []).initCalls ↔
      (lookupStr (InitState.mk [] 1 []).pluginState nm).isSome = true := by
    intro nm
    simp [lookupStr]
  obtain ⟨hout1, hwf1⟩ := initList_outputs pre (InitState.mk [] 1 []) hwf0
  obtain ⟨hout2, hwf2⟩ :=
    initList_outputs post (initList (InitState.mk [] 1 []) pre).1 hwf1
  obtain ⟨hinv2, hnd2⟩ := initList_calls pre (InitState.mk [] 1 []) hinv0 List.nodup_nil
  obtain ⟨hinv3, hnd3⟩ :=
    initList_calls post (initList (InitState.mk [] 1 []) pre).1 hinv2 hnd2
  refine ⟨⟨by simpa [rmInit] using hnd3, ?_⟩, ?_⟩
  · intro nm
    have hchain := (hinv3 nm).trans
      ((initList_domain post (initList (InitState.mk [] 1 []) pre).1 nm).trans
        (or_congr_left (initList_domain pre (InitState.mk [] 1 []) nm)))
    simpa [rmInit, lookupStr, or_assoc] using hchain
  · intro p q hp hq hname
    simp only [rmInit] at hp hq
    have hlp : lookupStr ((initList (initList (InitState.mk [] 1 []) pre).1 post).1).pluginState
        p.name = some p :=
      initList_lookup_mono post _ _ _ (hout1 p hp)
    have hlq : lookupStr ((initList (initList (InitState.mk [] 1 []) pre).1 post).1).pluginState
        q.name = some q := hout2 q hq
    rw [hname] at hlp
    rw [hlp] at hlq
    cases hlq
    rfl

/-- Witness for C6 on pre-hooks `[A, B]` and post-hooks `[B, A]`: the
instance of `B` initialized in the pre phase is exactly the instance the
post phase uses. -/
theorem plugin_init_memoized_witness :
    Plugin.mk "B" 2 ∈ (rmInit demoPre demoPost).2.1 ∧
    Plugin.mk "B" 2 ∈ (rmInit demoPre demoPost).2.2 ∧
    Plugin.mk "B" 2 = Plugin.mk "B" 2 :=
  ⟨by decide, by decide,
   (plugin_init_memoized demoPre demoPost).2 (Plugin.mk "B" 2) (Plugin.mk "B" 2)
     (by decide) (by decide) rfl⟩

/-! Lemmas about the hook pipeline. -/

/-- Every hook in the list is executed, in order, whatever errors the
hooks return. -/
theorem processHooks_names {σ : Type} (hooks : List (Hook σ)) (s : σ) :
    (ProcessHooks hooks s).2.1 = hooks.map Hook.name := by
  induction hooks generalizing s with
  | nil => rfl
  | cons h rest ih => simp [ProcessHooks, ih]

/-- Erasing the errors every hook returns leaves the resulting context
and the execution order unchanged, and only empties the warning log. -/
theorem processHooks_eraseError {σ : Type} (hooks : List (Hook σ)) (s : σ) :
    ProcessHooks (hooks.map Hook.eraseError) s =
      ((ProcessHooks hooks s).1, (ProcessHooks hooks s).2.1, []) := by
  induction hooks generalizing s with
  | nil => rfl
  | cons h rest ih => simp [ProcessHooks, Hook.eraseError, ih]

/-- C7: in `FunctionRunWrapperWithHooks`, hook errors are only logged:
every pre- and post-hook executes (the execution trace lists all their
names in order), the function body runs, and the final invocation
context — in particular its `Out` and recorded error — is the same as in
the run where every hook's returned error is replaced by nil. -/
theorem hook_errors_only_logged {σ : Type} (pre post : List (Hook (InvCtx σ)))
    (fn : InvCtx σ → Bytes → FuncOut × Option String) (data : Bytes) (c0 : InvCtx σ) :
    (FunctionRunWrapperWithHooks pre post fn data c0).2.2.1 =
        pre.map Hook.name ++ post.map Hook.name ∧
    (FunctionRunWrapperWithHooks pre post fn data c0).2.1 = true ∧
    (FunctionRunWrapperWithHooks pre post fn data c0).1 =
      (FunctionRunWrapperWithHooks (pre.map Hook.eraseError) (post.map Hook.eraseError)
        fn data c0).1 := by
  refine ⟨?_, rfl, ?_⟩
  · simp [FunctionRunWrapperWithHooks, processHooks_names]
  · simp [FunctionRunWrapperWithHooks, processHooks_eraseError]

end OFFF
